import Mathlib

/-!
Verification of the pysequencer core (src/pysequencer/state_machine.py and
src/pysequencer/engine.py) against its natural-language specification.

The Python code is shallowly embedded: each Python function becomes a Lean
function over explicit state; `asyncio` suspension points where another task
could observe or change state are exposed as oracle parameters; exceptions
raised by user-supplied callbacks or by the per-step work are modelled with
`Except String Unit`; `try/except`-and-continue loops become `List.map`
(delivery to every element regardless of individual failures), mirroring the
source's catch-and-log behaviour.
-/

namespace PySeq

/-- `SequenceState` from state_machine.py: the seven lifecycle states. -/
inductive SequenceState where
  | IDLE
  | RUNNING
  | PAUSED
  | STOPPING
  | STOPPED
  | HALTING
  | HALTED
deriving DecidableEq, Repr, Fintype

open SequenceState

/-- `StateMachine.VALID_TRANSITIONS` from state_machine.py lines 42-60: the
static mapping from each state to its set of legal destination states,
rendered as a list (only membership is ever consulted). -/
def VALID_TRANSITIONS : SequenceState → List SequenceState
  | IDLE => [RUNNING, HALTING]
  | RUNNING => [PAUSED, STOPPING, STOPPED, HALTING, HALTED]
  | PAUSED => [RUNNING, STOPPING, HALTING]
  | STOPPING => [STOPPED, HALTING]
  | STOPPED => [IDLE, HALTING]
  | HALTING => [HALTED]
  | HALTED => [IDLE]

/-- `StateTransitionEvent` from state_machine.py: the immutable record built
once per successful transition. The wall-clock `timestamp` field is omitted
(no claim mentions it); Python exceptions are modelled as strings. -/
structure StateTransitionEvent where
  from_state : SequenceState
  to_state : SequenceState
  reason : Option String
  error : Option String
deriving DecidableEq, Repr

/-- Behaviour of one registered transition callback: it either returns
normally or raises (modelled as `Except.error`). Callbacks are identified by
`Nat` ids; an environment maps ids to behaviours. -/
def CallbackBehavior : Type := StateTransitionEvent → Except String Unit

/-- The mutable part of `StateMachine`: the current state and the list of
transition-callback ids in registration order (`_transition_callbacks`).
The asyncio lock and event are serialization devices with no sequential
content and are not part of the sequential embedding. -/
structure SMachine where
  state : SequenceState
  callbacks : List Nat
deriving DecidableEq, Repr

/-- `StateMachine.__init__`: state is `IDLE`, no callbacks registered. -/
def SMachine.init : SMachine := { state := IDLE, callbacks := [] }

/-- `StateMachine.subscribe_to_transitions`: append-only registration. -/
def SMachine.subscribe_to_transitions (m : SMachine) (c : Nat) : SMachine :=
  { m with callbacks := m.callbacks ++ [c] }

/-- Result of one `StateMachine.transition` call: the boolean return value,
the machine afterwards, the event constructed (if any), the invocation log
`delivered` (which callback was called with which event, in call order), and
the messages logged from callbacks that raised. -/
structure TransitionResult where
  ok : Bool
  machine : SMachine
  event : Option StateTransitionEvent
  delivered : List (Nat × StateTransitionEvent)
  loggedErrors : List String
deriving Repr

/-- `StateMachine.transition` from state_machine.py lines 80-133. Under the
lock: if the target is not a legal destination of the current state, return
`False` with no state change and no notification. Otherwise set the state,
build one `StateTransitionEvent`, invoke every registered callback with it in
registration order — a callback that raises is caught and logged and the loop
continues (hence `List.map`, never an early exit) — and return `True`. -/
def SMachine.transition (env : Nat → CallbackBehavior) (m : SMachine)
    (target : SequenceState) (reason : Option String) (error : Option String) :
    TransitionResult :=
  if target ∈ VALID_TRANSITIONS m.state then
    let event : StateTransitionEvent :=
      { from_state := m.state, to_state := target, reason := reason, error := error }
    { ok := true
      machine := { m with state := target }
      event := some event
      delivered := m.callbacks.map (fun c => (c, event))
      loggedErrors := m.callbacks.filterMap (fun c =>
        match env c event with
        | .ok _ => none
        | .error msg => some msg) }
  else
    { ok := false, machine := m, event := none, delivered := [], loggedErrors := [] }

/-- One step descriptor out of `sequence_data["steps"]`: engine.py only ever
reads `step.get("name", ...)`, so a step is its optional name. -/
structure Step where
  name : Option String
deriving DecidableEq, Repr

/-- The `sequence_data` mapping passed to `start`: engine.py only ever reads
`sequence_data.get("steps", [])`, so it is an optional list of steps (absent
key modelled as `none`). -/
structure SequenceData where
  steps : Option (List Step)
deriving DecidableEq, Repr

/-- `step.get("name", f"step_...")` from engine.py lines 191 and 200: the
step's name, defaulting to `step_` followed by the index. -/
def stepDisplayName (step : Step) (idx : Nat) : String :=
  step.name.getD ("step_" ++ toString idx)

/-- `SequencerEngine._event_bus`: a dictionary from event-type string to the
list of callback ids in registration order, as an association list with
distinct keys. -/
abbrev EventBus : Type := List (String × List Nat)

/-- `SequencerEngine.subscribe` from engine.py lines 40-50: create the key's
list if missing, then append the callback. -/
def busSubscribe : EventBus → String → Nat → EventBus
  | [], event_type, c => [(event_type, [c])]
  | (k, cs) :: rest, event_type, c =>
    if k = event_type then (k, cs ++ [c]) :: rest
    else (k, cs) :: busSubscribe rest event_type c

/-- The keyword payload handed to an event-bus callback. -/
inductive Payload where
  | stepFields (step_index : Nat) (step_name : String)
  | stateChanged (from_state : SequenceState) (to_state : SequenceState)
      (reason : Option String)
deriving DecidableEq, Repr

/-- Result of one `_publish` call: which callback received which payload, in
call order, and the messages logged from callbacks that raised. -/
structure PublishResult where
  delivered : List (Nat × Payload)
  loggedErrors : List String
deriving Repr

/-- `SequencerEngine._publish` from engine.py lines 52-59: if the event type
has an entry, invoke each registered callback with the payload — a callback
that raises is caught and logged and the loop continues; if the event type has
no entry nothing happens. -/
def publish (env : Nat → Payload → Except String Unit) (bus : EventBus)
    (event_type : String) (payload : Payload) : PublishResult :=
  match bus.lookup event_type with
  | none => { delivered := [], loggedErrors := [] }
  | some cs =>
    { delivered := cs.map (fun c => (c, payload))
      loggedErrors := cs.filterMap (fun c =>
        match env c payload with
        | .ok _ => none
        | .error msg => some msg) }

/-- Callback behaviour used where the machine's transition result is consumed
only for its boolean and state (the engine's own `_on_state_transition` never
raises: `_publish` catches everything). `SMachine.transition` is independent
of the environment in those fields. -/
def benignEnv : Nat → CallbackBehavior := fun _ _ => Except.ok Unit.unit

/-- An event-bus callback environment in which no callback raises. -/
def benignBusEnv : Nat → Payload → Except String Unit :=
  fun _ _ => Except.ok Unit.unit

/-- One transition requested of the state machine: target, reason, error. -/
structure Request where
  target : SequenceState
  reason : Option String
  error : Option String
deriving DecidableEq, Repr

open SequenceState

/-- A `_publish` call made by the execution loop for a step boundary. -/
inductive StepEvent where
  | started (step_index : Nat) (step_name : String)
  | completed (step_index : Nat) (step_name : String)
deriving DecidableEq, Repr

/-- How the `for idx, step in enumerate(steps)` loop in `_execute` ended:
either control reached the line after the loop (steps exhausted, or `break`
on a stop/halt request), or an exception escaped the loop body into the
`except Exception` handler. -/
inductive LoopOutcome where
  | finished
  | faulted (msg : String)
deriving DecidableEq, Repr

/-- The `for` loop of `SequencerEngine._execute` (engine.py lines 178-201).
`poll idx` is the state the loop observes at the top of iteration `idx`,
after the `while PAUSED` idle loop has ended; `work idx` is the per-step
work between the two publishes. Modelled from the spec: the StepRunner
capability (§6) that performs each step's work and may fault is external —
the source simulates it with `await asyncio.sleep(0.1)` — so it is the
oracle `work`; any exception it raises lands in the `except Exception`
handler. Per iteration: break if the observed state is neither RUNNING nor
PAUSED; publish `step_started`; run the work (a fault aborts the loop);
publish `step_completed`; continue with the next index. -/
def executeSteps (work : Nat → Except String Unit) (poll : Nat → SequenceState) :
    Nat → List Step → List StepEvent × LoopOutcome
  | _, [] => ([], .finished)
  | idx, step :: rest =>
    if poll idx ∉ [RUNNING, PAUSED] then ([], .finished)
    else
      let name := stepDisplayName step idx
      match work idx with
      | .error msg => ([.started idx name], .faulted msg)
      | .ok _ =>
        let tail := executeSteps work poll (idx + 1) rest
        (.started idx name :: .completed idx name :: tail.1, tail.2)

/-- What one uncancelled run of `SequencerEngine._execute` did: the step
events it published and the transitions it requested, in order. -/
structure ExecResult where
  published : List StepEvent
  requests : List Request
deriving DecidableEq, Repr

/-- `SequencerEngine._execute` (engine.py lines 167-216) for a run that is
not cancelled: read `steps` (missing key defaults to the empty list), run the
loop, then — unless an exception reached the `except Exception` handler,
which requests HALTED with the fault as error — request STOPPED with reason
"Execution completed" when the state observed after the loop (`finalState`)
is still RUNNING or PAUSED. -/
def executeRun (work : Nat → Except String Unit) (poll : Nat → SequenceState)
    (finalState : SequenceState) (data : SequenceData) : ExecResult :=
  let steps := data.steps.getD []
  let r := executeSteps work poll 0 steps
  match r.2 with
  | .faulted msg =>
    { published := r.1
      requests := [⟨HALTED, some "Execution error", some msg⟩] }
  | .finished =>
    if finalState ∈ [RUNNING, PAUSED] then
      { published := r.1
        requests := [⟨STOPPED, some "Execution completed", none⟩] }
    else
      { published := r.1, requests := [] }

/-- The callback id under which `__init__` subscribes the engine's own
`_on_state_transition` to the state machine. -/
def onStateTransitionId : Nat := 0

/-- The state of one `SequencerEngine`: its state machine, whether
`self._task` is not None (`taskPresent`), whether that task has finished
(`taskDone`, i.e. `self._task.done()`), the sequence data the spawned task
holds, and the event bus. -/
structure Engine where
  machine : SMachine
  taskPresent : Bool
  taskDone : Bool
  taskData : SequenceData
  bus : EventBus
deriving DecidableEq

/-- `SequencerEngine.__init__`: a fresh IDLE state machine with
`_on_state_transition` subscribed, no task, empty event bus. -/
def Engine.initial : Engine :=
  { machine := SMachine.init.subscribe_to_transitions onStateTransitionId
    taskPresent := false
    taskDone := false
    taskData := { steps := none }
    bus := [] }

/-- `SequencerEngine.subscribe`: delegate to the event bus. -/
def Engine.subscribe (e : Engine) (event_type : String) (c : Nat) : Engine :=
  { e with bus := busSubscribe e.bus event_type c }

/-- Result of one engine lifecycle call: its boolean return value, the
engine afterwards, and the transitions it requested of the state machine,
in order. -/
structure EngineCall where
  ok : Bool
  engine : Engine
  requests : List Request

/-- `SequencerEngine.start` (engine.py lines 70-90): reject unless the state
is IDLE; request the RUNNING transition; on success spawn the execution task
(handle becomes present and not done, holding `data`). -/
def Engine.start (e : Engine) (data : SequenceData) : EngineCall :=
  if e.machine.state ≠ IDLE then { ok := false, engine := e, requests := [] }
  else
    let r := SMachine.transition benignEnv e.machine RUNNING (some "start() called") none
    if r.ok then
      let e1 := { e with
        machine := r.machine
        taskPresent := true
        taskDone := false
        taskData := data }
      { ok := true, engine := e1
        requests := [⟨RUNNING, some "start() called", none⟩] }
    else
      { ok := false, engine := { e with machine := r.machine }
        requests := [⟨RUNNING, some "start() called", none⟩] }

/-- `SequencerEngine.pause` (engine.py lines 92-100): reject unless RUNNING,
else request PAUSED and return that result. -/
def Engine.pause (e : Engine) : EngineCall :=
  if e.machine.state ≠ RUNNING then { ok := false, engine := e, requests := [] }
  else
    let r := SMachine.transition benignEnv e.machine PAUSED (some "pause() called") none
    { ok := r.ok, engine := { e with machine := r.machine }
      requests := [⟨PAUSED, some "pause() called", none⟩] }

/-- `SequencerEngine.resume` (engine.py lines 102-110): reject unless PAUSED,
else request RUNNING and return that result. -/
def Engine.resume (e : Engine) : EngineCall :=
  if e.machine.state ≠ PAUSED then { ok := false, engine := e, requests := [] }
  else
    let r := SMachine.transition benignEnv e.machine RUNNING (some "resume() called") none
    { ok := r.ok, engine := { e with machine := r.machine }
      requests := [⟨RUNNING, some "resume() called", none⟩] }

/-- `SequencerEngine.halt` (engine.py lines 136-155): short-circuit success
when already HALTED; request HALTING (return False if rejected); if a task is
present and not done, cancel it and await its termination — the cancelled
task's `except asyncio.CancelledError: pass` makes no further transitions —
then request HALTED and return that result. The task handle itself is never
assigned None. -/
def Engine.halt (e : Engine) : EngineCall :=
  if e.machine.state = HALTED then { ok := true, engine := e, requests := [] }
  else
    let r := SMachine.transition benignEnv e.machine HALTING (some "halt() called") none
    if r.ok then
      let e1 := { e with machine := r.machine }
      let e2 := if e1.taskPresent && !e1.taskDone then { e1 with taskDone := true } else e1
      let r2 := SMachine.transition benignEnv e2.machine HALTED (some "Halt completed") none
      { ok := r2.ok, engine := { e2 with machine := r2.machine }
        requests := [⟨HALTING, some "halt() called", none⟩,
                     ⟨HALTED, some "Halt completed", none⟩] }
    else
      { ok := false, engine := { e with machine := r.machine }
        requests := [⟨HALTING, some "halt() called", none⟩] }

/-- `SequencerEngine.stop` (engine.py lines 112-134): reject unless the state
is RUNNING, PAUSED or STOPPED; short-circuit success when already STOPPED;
request STOPPING (return False if rejected); then wait up to 5 seconds for
the task — `timesOut` says whether `asyncio.wait_for` timed out — calling
`halt()` on timeout; return True either way. In every reachable RUNNING or
PAUSED configuration a task is present (start spawned it), and a wait that
does not time out means the task finished. -/
def Engine.stop (e : Engine) (timesOut : Bool) : EngineCall :=
  if e.machine.state ∉ [RUNNING, PAUSED, STOPPED] then
    { ok := false, engine := e, requests := [] }
  else if e.machine.state = STOPPED then { ok := true, engine := e, requests := [] }
  else
    let r := SMachine.transition benignEnv e.machine STOPPING (some "stop() called") none
    if r.ok then
      let e1 := { e with machine := r.machine }
      if timesOut then
        let h := Engine.halt e1
        { ok := true, engine := h.engine
          requests := ⟨STOPPING, some "stop() called", none⟩ :: h.requests }
      else
        { ok := true, engine := { e1 with taskDone := true }
          requests := [⟨STOPPING, some "stop() called", none⟩] }
    else
      { ok := false, engine := { e with machine := r.machine }
        requests := [⟨STOPPING, some "stop() called", none⟩] }

/-- `SequencerEngine.reset` (engine.py lines 157-165): reject unless STOPPED
or HALTED, else request IDLE and return that result. -/
def Engine.reset (e : Engine) : EngineCall :=
  if e.machine.state ∉ [STOPPED, HALTED] then { ok := false, engine := e, requests := [] }
  else
    let r := SMachine.transition benignEnv e.machine IDLE (some "reset() called") none
    { ok := r.ok, engine := { e with machine := r.machine }
      requests := [⟨IDLE, some "reset() called", none⟩] }

/-- Apply a list of transition requests to the state machine in order (each
one accepted or rejected by `SMachine.transition` as usual). -/
def applyRequests (m : SMachine) : List Request → SMachine
  | [] => m
  | r :: rest =>
    applyRequests (SMachine.transition benignEnv m r.target r.reason r.error).machine rest

/-- The spawned execution task running to completion without interference
(no command is issued while it runs, so every state it observes is the
current state, and the per-step work succeeds): the task performs
`executeRun`, its requested transitions take effect, and the task finishes.
Note that `_task` is never assigned None anywhere in engine.py, so the
handle stays present. -/
def Engine.taskRunsToCompletion (e : Engine) : Engine :=
  if e.taskPresent && !e.taskDone then
    let res := executeRun (fun _ => Except.ok Unit.unit) (fun _ => e.machine.state)
      e.machine.state e.taskData
    { e with machine := applyRequests e.machine res.requests, taskDone := true }
  else e

/-- The events that can happen to a controller during its lifetime: a
lifecycle command, or the spawned task running to completion. -/
inductive EngineEvent where
  | startCmd (data : SequenceData)
  | pauseCmd
  | resumeCmd
  | stopCmd (timesOut : Bool)
  | haltCmd
  | resetCmd
  | taskCompletes
deriving Repr

/-- The engine after one lifecycle event. -/
def applyEvent (e : Engine) : EngineEvent → Engine
  | .startCmd data => (e.start data).engine
  | .pauseCmd => e.pause.engine
  | .resumeCmd => e.resume.engine
  | .stopCmd timesOut => (e.stop timesOut).engine
  | .haltCmd => e.halt.engine
  | .resetCmd => e.reset.engine
  | .taskCompletes => e.taskRunsToCompletion

/-- Engine configurations reachable during a controller's lifetime: the
freshly constructed engine, closed under lifecycle events. -/
inductive Reaches : Engine → Prop where
  | init : Reaches Engine.initial
  | step (e : Engine) (ev : EngineEvent) : Reaches e → Reaches (applyEvent e ev)

/-- Stated from the claim's words, for comparison with `executeSteps`: the
strictly alternating started-then-completed trace for the given steps,
numbering them from `idx`. -/
def expectedAlternatingTrace : List Step → Nat → List StepEvent
  | [], _ => []
  | step :: rest, idx =>
    .started idx (stepDisplayName step idx) ::
      .completed idx (stepDisplayName step idx) ::
        expectedAlternatingTrace rest (idx + 1)

/-- Whether a step event is a `step_started` publication. -/
def StepEvent.isStarted : StepEvent → Bool
  | .started _ _ => true
  | .completed _ _ => false

/-- Whether a step event is a `step_completed` publication. -/
def StepEvent.isCompleted : StepEvent → Bool
  | .started _ _ => false
  | .completed _ _ => true

/-- Per-step work that raises `msg` at step `i` and succeeds elsewhere. -/
def failAt (i : Nat) (msg : String) : Nat → Except String Unit :=
  fun j => if j = i then Except.error msg else Except.ok Unit.unit

/-- The engine after `start` on a sequence with an empty step list followed by
the spawned task running to completion: the run ends in STOPPED while the
task handle, which engine.py never assigns back to None, is still present. -/
def engineAfterCompletedRun : Engine :=
  applyEvent (applyEvent Engine.initial (.startCmd { steps := some [] })) .taskCompletes

/-- A concrete engine in the given state with a present, unfinished task:
used as a test configuration for the lifecycle commands. -/
def engineIn (s : SequenceState) : Engine :=
  { machine := { state := s, callbacks := [onStateTransitionId] }
    taskPresent := true
    taskDone := false
    taskData := { steps := none }
    bus := [] }

end PySeq

namespace PySeq

open SequenceState

/-- C1 counterexample: in the code's transition table `RUNNING` has a direct
edge to `STOPPED` and a direct edge to `HALTED`, although `RUNNING` is neither
`STOPPING` nor `HALTING` — refuting the claim that `STOPPED`/`HALTED` are
reachable only from `STOPPING`/`HALTING` respectively. -/
theorem c1_running_direct_edges :
    STOPPED ∈ VALID_TRANSITIONS RUNNING ∧ HALTED ∈ VALID_TRANSITIONS RUNNING ∧
      RUNNING ≠ STOPPING ∧ RUNNING ≠ HALTING := by
  decide

/-- C1 (amended): for every state S, `STOPPED` is a legal destination of S
exactly when S is `RUNNING` or `STOPPING`, and `HALTED` is a legal destination
of S exactly when S is `RUNNING` or `HALTING`; `PAUSED` has no direct edge to
`STOPPED` or `HALTED`, but `RUNNING` has a direct edge to both. -/
theorem c1_edges_into_terminal_states :
    (∀ s : SequenceState,
      (STOPPED ∈ VALID_TRANSITIONS s ↔ s = RUNNING ∨ s = STOPPING) ∧
      (HALTED ∈ VALID_TRANSITIONS s ↔ s = RUNNING ∨ s = HALTING)) ∧
    STOPPED ∉ VALID_TRANSITIONS PAUSED ∧ HALTED ∉ VALID_TRANSITIONS PAUSED := by
  decide

/-- C2: `StateMachine.transition(T)` returns True exactly when T is a legal
destination of the current state; on success the state equals T afterwards;
on failure the machine is unchanged and no observer is notified. -/
theorem c2_transition_succeeds_iff_legal (env : Nat → CallbackBehavior)
    (m : SMachine) (t : SequenceState) (reason error : Option String) :
    ((SMachine.transition env m t reason error).ok = true ↔
      t ∈ VALID_TRANSITIONS m.state) ∧
    ((SMachine.transition env m t reason error).ok = true →
      (SMachine.transition env m t reason error).machine.state = t) ∧
    ((SMachine.transition env m t reason error).ok = false →
      (SMachine.transition env m t reason error).machine = m ∧
      (SMachine.transition env m t reason error).delivered = []) := by
  unfold SMachine.transition
  split <;> simp_all

/-- C2 witness: concrete instances — RUNNING is accepted from IDLE and the
state becomes RUNNING; STOPPED is rejected from IDLE leaving the machine
untouched with no delivery. -/
theorem c2_transition_succeeds_iff_legal_witness :
    (SMachine.transition benignEnv ⟨IDLE, [1]⟩ RUNNING none none).machine.state
        = RUNNING ∧
    (SMachine.transition benignEnv ⟨IDLE, [1]⟩ STOPPED none none).machine
        = ⟨IDLE, [1]⟩ ∧
    (SMachine.transition benignEnv ⟨IDLE, [1]⟩ STOPPED none none).delivered = [] :=
  ⟨(c2_transition_succeeds_iff_legal benignEnv ⟨IDLE, [1]⟩ RUNNING none none).2.1
      (by decide),
   (c2_transition_succeeds_iff_legal benignEnv ⟨IDLE, [1]⟩ STOPPED none none).2.2
      (by decide)⟩

/-- C5: every successful transition constructs a single event and delivers it
to every registered observer exactly once, in registration order; and the
outcome of the call — success, delivery log, and resulting machine — is
identical under any two callback-behaviour environments, so an observer that
raises never prevents delivery to the others nor makes the transition fail
(the raise is caught inside the notification loop). -/
theorem c5_observer_delivery (env env' : Nat → CallbackBehavior) (m : SMachine)
    (t : SequenceState) (reason error : Option String) :
    ((SMachine.transition env m t reason error).ok = true →
      (SMachine.transition env m t reason error).event =
        some ⟨m.state, t, reason, error⟩ ∧
      (SMachine.transition env m t reason error).delivered =
        m.callbacks.map (fun c =>
          (c, (⟨m.state, t, reason, error⟩ : StateTransitionEvent)))) ∧
    ((SMachine.transition env m t reason error).ok =
      (SMachine.transition env' m t reason error).ok ∧
     (SMachine.transition env m t reason error).delivered =
      (SMachine.transition env' m t reason error).delivered ∧
     (SMachine.transition env m t reason error).machine =
      (SMachine.transition env' m t reason error).machine) := by
  unfold SMachine.transition
  split <;> simp_all

/-- C5 witness: with observers 1 and 2 registered (in that order) and an
environment in which observer 1 raises, a successful IDLE → RUNNING transition
still delivers the one event to both observers in order. -/
theorem c5_observer_delivery_witness :
    (SMachine.transition (fun c _ => if c = 1 then Except.error "boom"
        else Except.ok Unit.unit) ⟨IDLE, [1, 2]⟩ RUNNING none none).event =
      some ⟨IDLE, RUNNING, none, none⟩ ∧
    (SMachine.transition (fun c _ => if c = 1 then Except.error "boom"
        else Except.ok Unit.unit) ⟨IDLE, [1, 2]⟩ RUNNING none none).delivered =
      [(1, ⟨IDLE, RUNNING, none, none⟩), (2, ⟨IDLE, RUNNING, none, none⟩)] :=
  (c5_observer_delivery (fun c _ => if c = 1 then Except.error "boom"
    else Except.ok Unit.unit) benignEnv ⟨IDLE, [1, 2]⟩ RUNNING none none).1
    (by decide)

/-- Subscribing appends the callback to the end of the event type's list
(creating the entry when absent), so the bus keeps registration order. -/
theorem busSubscribe_lookup (bus : EventBus) (et : String) (c : Nat) :
    (busSubscribe bus et c).lookup et = some ((bus.lookup et).getD [] ++ [c]) := by
  induction bus with
  | nil => simp [busSubscribe, List.lookup]
  | cons hd tl ih =>
    obtain ⟨k, cs⟩ := hd
    by_cases h : k = et
    · simp [busSubscribe, h, List.lookup]
    · have hb : (et == k) = false := beq_eq_false_iff_ne.mpr (Ne.symm h)
      simp [busSubscribe, h, List.lookup, ih, hb]

/-- C9: publishing under an event type delivers the payload to every callback
registered for it, in registration order (subscription appends, lookup reads
the whole list); the delivery log is identical under any two callback
behaviours, so a raising callback never blocks the rest nor the publisher;
publishing under an event type with no entry does nothing. -/
theorem c9_publish_isolated (env env' : Nat → Payload → Except String Unit)
    (bus : EventBus) (event_type : String) (payload : Payload) :
    (∀ cs, bus.lookup event_type = some cs →
      (publish env bus event_type payload).delivered =
        cs.map (fun c => (c, payload))) ∧
    (bus.lookup event_type = none →
      publish env bus event_type payload = { delivered := [], loggedErrors := [] }) ∧
    (publish env bus event_type payload).delivered =
      (publish env' bus event_type payload).delivered ∧
    (∀ (b : EventBus) (c : Nat),
      (busSubscribe b event_type c).lookup event_type =
        some ((b.lookup event_type).getD [] ++ [c])) := by
  refine ⟨?_, ?_, ?_, fun b c => busSubscribe_lookup b event_type c⟩ <;>
    unfold publish <;> cases h : bus.lookup event_type <;> simp_all

/-- C9 witness: on a bus where callbacks 3 and 4 are registered for
"step_started", publishing delivers to both in order even when callback 3
raises, and publishing "step_completed" (no entry) is a no-op. -/
theorem c9_publish_isolated_witness :
    (publish (fun c _ => if c = 3 then Except.error "boom" else Except.ok Unit.unit)
      [("step_started", [3, 4])] "step_started" (Payload.stepFields 0 "s")).delivered =
      [(3, Payload.stepFields 0 "s"), (4, Payload.stepFields 0 "s")] ∧
    publish (fun c _ => if c = 3 then Except.error "boom" else Except.ok Unit.unit)
      [("step_started", [3, 4])] "step_completed" (Payload.stepFields 0 "s") =
      { delivered := [], loggedErrors := [] } :=
  ⟨(c9_publish_isolated (fun c _ => if c = 3 then Except.error "boom"
      else Except.ok Unit.unit) benignBusEnv [("step_started", [3, 4])]
      "step_started" (Payload.stepFields 0 "s")).1 [3, 4] (by decide),
   (c9_publish_isolated (fun c _ => if c = 3 then Except.error "boom"
      else Except.ok Unit.unit) benignBusEnv [("step_started", [3, 4])]
      "step_completed" (Payload.stepFields 0 "s")).2.1 (by decide)⟩

/-- On a run with no interference (every poll observes RUNNING) and per-step
work that always succeeds, the loop publishes the alternating trace and
reaches the line after the loop. -/
theorem executeSteps_no_interference (steps : List Step) (idx : Nat) :
    executeSteps (fun _ => Except.ok Unit.unit) (fun _ => RUNNING) idx steps =
      (expectedAlternatingTrace steps idx, LoopOutcome.finished) := by
  induction steps generalizing idx with
  | nil => simp [executeSteps, expectedAlternatingTrace]
  | cons s rest ih => simp [executeSteps, expectedAlternatingTrace, ih]

/-- The alternating trace holds exactly one started event per step. -/
theorem expectedTrace_count_started (steps : List Step) (idx : Nat) :
    (expectedAlternatingTrace steps idx).countP StepEvent.isStarted =
      steps.length := by
  induction steps generalizing idx with
  | nil => simp [expectedAlternatingTrace]
  | cons s rest ih =>
    simp [expectedAlternatingTrace, List.countP_cons, StepEvent.isStarted, ih]

/-- The alternating trace holds exactly one completed event per step. -/
theorem expectedTrace_count_completed (steps : List Step) (idx : Nat) :
    (expectedAlternatingTrace steps idx).countP StepEvent.isCompleted =
      steps.length := by
  induction steps generalizing idx with
  | nil => simp [expectedAlternatingTrace]
  | cons s rest ih =>
    simp [expectedAlternatingTrace, List.countP_cons, StepEvent.isCompleted, ih]

/-- Whatever the oracles, a run requests either nothing, or the single
STOPPED transition with reason "Execution completed", or the single HALTED
transition with reason "Execution error". -/
theorem executeRun_requests_shape (work : Nat → Except String Unit)
    (poll : Nat → SequenceState) (finalState : SequenceState)
    (data : SequenceData) :
    (executeRun work poll finalState data).requests = [] ∨
    (executeRun work poll finalState data).requests =
      [⟨STOPPED, some "Execution completed", none⟩] ∨
    ∃ msg, (executeRun work poll finalState data).requests =
      [⟨HALTED, some "Execution error", some msg⟩] := by
  unfold executeRun
  cases h : (executeSteps work poll 0 (data.steps.getD [])).2 with
  | finished => split <;> simp [h]
  | faulted msg => simp [h]

/-- C3: running a sequence of N steps to completion with no pause, stop,
halt, or fault publishes the strictly alternating trace of exactly N
step_started and N step_completed events for indices 0..N-1 and then
requests exactly one transition, to STOPPED with reason "Execution
completed"; moreover, whatever the oracles, any STOPPED transition the loop
ever requests is that one — the loop never reaches STOPPED any other way. -/
theorem c3_full_run_trace (steps : List Step) :
    (executeRun (fun _ => Except.ok Unit.unit) (fun _ => RUNNING) RUNNING
        { steps := some steps }).published = expectedAlternatingTrace steps 0 ∧
    (executeRun (fun _ => Except.ok Unit.unit) (fun _ => RUNNING) RUNNING
        { steps := some steps }).published.countP StepEvent.isStarted =
      steps.length ∧
    (executeRun (fun _ => Except.ok Unit.unit) (fun _ => RUNNING) RUNNING
        { steps := some steps }).published.countP StepEvent.isCompleted =
      steps.length ∧
    (executeRun (fun _ => Except.ok Unit.unit) (fun _ => RUNNING) RUNNING
        { steps := some steps }).requests =
      [⟨STOPPED, some "Execution completed", none⟩] ∧
    (∀ (work : Nat → Except String Unit) (poll : Nat → SequenceState)
        (finalState : SequenceState) (data : SequenceData) (req : Request),
      req ∈ (executeRun work poll finalState data).requests →
      req.target = STOPPED →
      req = ⟨STOPPED, some "Execution completed", none⟩) := by
  have hrun : executeRun (fun _ => Except.ok Unit.unit) (fun _ => RUNNING) RUNNING
      { steps := some steps } =
      { published := expectedAlternatingTrace steps 0
        requests := [⟨STOPPED, some "Execution completed", none⟩] } := by
    unfold executeRun
    simp [executeSteps_no_interference]
  refine ⟨by simp [hrun], by simp [hrun, expectedTrace_count_started],
    by simp [hrun, expectedTrace_count_completed], by simp [hrun], ?_⟩
  intro work poll finalState data req hmem htarget
  rcases executeRun_requests_shape work poll finalState data with h | h | ⟨msg, h⟩ <;>
    rw [h] at hmem <;> simp at hmem
  · exact hmem
  · rw [hmem] at htarget
    simp at htarget

/-- C3 witness: on a concrete two-step sequence the requested transitions are
exactly the single STOPPED one, and the only-path clause applied to that run
pins the concrete STOPPED request to reason "Execution completed". -/
theorem c3_full_run_trace_witness :
    (executeRun (fun _ => Except.ok Unit.unit) (fun _ => RUNNING) RUNNING
        { steps := some [{ name := some "a" }, { name := none }] }).requests =
      [⟨STOPPED, some "Execution completed", none⟩] ∧
    ({ target := STOPPED, reason := some "Execution completed", error := none }
        : Request) = ⟨STOPPED, some "Execution completed", none⟩ :=
  ⟨(c3_full_run_trace [{ name := some "a" }, { name := none }]).2.2.2.1,
   (c3_full_run_trace []).2.2.2.2 (fun _ => Except.ok Unit.unit)
     (fun _ => RUNNING) RUNNING { steps := some [] }
     ⟨STOPPED, some "Execution completed", none⟩ (by decide) (by decide)⟩

/-- When the per-step work succeeds for every step before position
`pre.length` and raises there, the loop publishes the alternating trace of
the earlier steps, then the started event of the faulting step, and ends in
the fault outcome. -/
theorem executeSteps_failAt (msg : String) (pre : List Step) :
    ∀ (idx : Nat) (sf : Step) (suf : List Step),
    executeSteps (failAt (idx + pre.length) msg) (fun _ => RUNNING) idx
        (pre ++ sf :: suf) =
      (expectedAlternatingTrace pre idx ++
        [.started (idx + pre.length) (stepDisplayName sf (idx + pre.length))],
       .faulted msg) := by
  induction pre with
  | nil =>
    intro idx sf suf
    simp [executeSteps, failAt, expectedAlternatingTrace]
  | cons s rest ih =>
    intro idx sf suf
    have hne : ¬idx = idx + 1 + rest.length := by omega
    simp only [executeSteps, expectedAlternatingTrace, List.cons_append,
      List.length_cons]
    rw [show idx + (rest.length + 1) = idx + 1 + rest.length from by omega]
    simp [failAt, hne, ih (idx + 1) sf suf]

/-- C6: if the per-step work raises at the step in position `pre.length`
(succeeding on the `pre` steps before it), the run requests exactly one
transition — to HALTED with reason "Execution error" carrying the raised
fault as the event's error — and publishes nothing after the faulting step's
started event: no later step runs, the faulting step's completed event is
never published, and nothing is retried. -/
theorem c6_fault_halts (pre suf : List Step) (sf : Step) (msg : String) :
    executeRun (failAt pre.length msg) (fun _ => RUNNING) RUNNING
        { steps := some (pre ++ sf :: suf) } =
      { published := expectedAlternatingTrace pre 0 ++
          [.started pre.length (stepDisplayName sf pre.length)]
        requests := [⟨HALTED, some "Execution error", some msg⟩] } := by
  have h := executeSteps_failAt msg pre 0 sf suf
  simp only [Nat.zero_add] at h
  unfold executeRun
  simp [h]

/-- C10: on sequence data whose "steps" entry is absent or the empty list,
`start` from IDLE returns True, and the spawned run publishes no step event
and requests the single STOPPED transition with reason "Execution completed"
— a missing "steps" key behaves exactly like an empty step list. -/
theorem c10_empty_or_missing_steps (e : Engine) (data : SequenceData)
    (hidle : e.machine.state = IDLE)
    (hsteps : data.steps = none ∨ data.steps = some []) :
    (e.start data).ok = true ∧
    executeRun (fun _ => Except.ok Unit.unit) (fun _ => RUNNING) RUNNING data =
      { published := []
        requests := [⟨STOPPED, some "Execution completed", none⟩] } := by
  constructor
  · simp [Engine.start, SMachine.transition, hidle, VALID_TRANSITIONS]
  · rcases hsteps with h | h <;> simp [executeRun, executeSteps, h]

/-- C10 witness: the freshly created engine accepts `start` on data with no
"steps" key, and the runs over missing and empty step lists both publish
nothing and request only the STOPPED transition. -/
theorem c10_empty_or_missing_steps_witness :
    ((Engine.initial.start { steps := none }).ok = true ∧
      executeRun (fun _ => Except.ok Unit.unit) (fun _ => RUNNING) RUNNING
          { steps := none } =
        { published := []
          requests := [⟨STOPPED, some "Execution completed", none⟩] }) ∧
    ((Engine.initial.start { steps := some [] }).ok = true ∧
      executeRun (fun _ => Except.ok Unit.unit) (fun _ => RUNNING) RUNNING
          { steps := some [] } =
        { published := []
          requests := [⟨STOPPED, some "Execution completed", none⟩] }) :=
  ⟨c10_empty_or_missing_steps Engine.initial { steps := none } (by decide)
      (Or.inl rfl),
   c10_empty_or_missing_steps Engine.initial { steps := some [] } (by decide)
      (Or.inr rfl)⟩

/-- C7: `stop()` returns False and requests nothing outside
RUNNING/PAUSED/STOPPED; short-circuits to True with no request when already
STOPPED; otherwise requests STOPPING (always accepted from RUNNING/PAUSED),
returns True, and — only when the 5-second wait for the task times out —
escalates by invoking `halt()`, whose HALTING and HALTED requests follow. -/
theorem c7_stop_behaviour (e : Engine) (timesOut : Bool) :
    (e.machine.state ∉ [RUNNING, PAUSED, STOPPED] →
      e.stop timesOut = ⟨false, e, []⟩) ∧
    (e.machine.state = STOPPED → e.stop timesOut = ⟨true, e, []⟩) ∧
    (e.machine.state = RUNNING ∨ e.machine.state = PAUSED →
      (e.stop timesOut).ok = true ∧
      (e.stop timesOut).requests.head? =
        some ⟨STOPPING, some "stop() called", none⟩ ∧
      (timesOut = false →
        (e.stop timesOut).requests =
          [⟨STOPPING, some "stop() called", none⟩]) ∧
      (timesOut = true →
        (e.stop timesOut).requests =
          [⟨STOPPING, some "stop() called", none⟩,
           ⟨HALTING, some "halt() called", none⟩,
           ⟨HALTED, some "Halt completed", none⟩])) := by
  obtain ⟨⟨s, cbs⟩, tp, td, tdata, bus⟩ := e
  cases s <;> cases timesOut <;>
    simp [Engine.stop, Engine.halt, SMachine.transition, VALID_TRANSITIONS]

/-- C7 witness: from a running engine, a stop whose wait finishes in time
requests only STOPPING and returns True; a stop whose wait times out also
requests halt's HALTING and HALTED; from a freshly created (IDLE) engine
stop returns False with no request; from a stopped machine stop
short-circuits to True with no request. -/
theorem c7_stop_behaviour_witness :
    ((engineIn RUNNING).stop false).requests =
      [⟨STOPPING, some "stop() called", none⟩] ∧
    ((engineIn RUNNING).stop true).requests =
      [⟨STOPPING, some "stop() called", none⟩,
       ⟨HALTING, some "halt() called", none⟩,
       ⟨HALTED, some "Halt completed", none⟩] ∧
    Engine.initial.stop false = ⟨false, Engine.initial, []⟩ ∧
    (engineIn STOPPED).stop false = ⟨true, engineIn STOPPED, []⟩ :=
  ⟨((c7_stop_behaviour (engineIn RUNNING) false).2.2 (Or.inl rfl)).2.2.1 rfl,
   ((c7_stop_behaviour (engineIn RUNNING) true).2.2 (Or.inl rfl)).2.2.2 rfl,
   (c7_stop_behaviour Engine.initial false).1 (by decide),
   (c7_stop_behaviour (engineIn STOPPED) false).2.1 rfl⟩

/-- C8: `halt()` already in HALTED short-circuits to True with no request (in
particular it does not re-enter HALTING); otherwise it requests HALTING —
succeeding exactly when HALTING is a legal destination, which makes the whole
call return False precisely on that rejection — cancels a present unfinished
task, then requests HALTED (always accepted from HALTING) and ends HALTED. -/
theorem c8_halt_idempotent (e : Engine) :
    (e.machine.state = HALTED → e.halt = ⟨true, e, []⟩) ∧
    (e.machine.state ≠ HALTED →
      (e.halt.ok = true ↔ HALTING ∈ VALID_TRANSITIONS e.machine.state) ∧
      e.halt.requests.head? = some ⟨HALTING, some "halt() called", none⟩ ∧
      (HALTING ∈ VALID_TRANSITIONS e.machine.state →
        e.halt.requests =
          [⟨HALTING, some "halt() called", none⟩,
           ⟨HALTED, some "Halt completed", none⟩] ∧
        e.halt.engine.machine.state = HALTED ∧
        (e.taskPresent = true → e.taskDone = false →
          e.halt.engine.taskDone = true)) ∧
      (HALTING ∉ VALID_TRANSITIONS e.machine.state →
        e.halt.ok = false ∧
        e.halt.requests = [⟨HALTING, some "halt() called", none⟩])) := by
  obtain ⟨⟨s, cbs⟩, tp, td, tdata, bus⟩ := e
  cases s <;> cases tp <;> cases td <;>
    simp [Engine.halt, SMachine.transition, VALID_TRANSITIONS]

/-- C8 witness: halting an already-halted engine returns True with no
request; halting a running engine with a live task issues exactly the
HALTING and HALTED requests, ends HALTED with the task cancelled, and its
success coincides with HALTING being legal from RUNNING; halting while
already HALTING (HALTING is not a legal destination of itself) fails with
only the rejected HALTING request. -/
theorem c8_halt_idempotent_witness :
    (engineIn HALTED).halt = ⟨true, engineIn HALTED, []⟩ ∧
    (((engineIn RUNNING).halt).requests =
      [⟨HALTING, some "halt() called", none⟩,
       ⟨HALTED, some "Halt completed", none⟩] ∧
     ((engineIn RUNNING).halt).engine.machine.state = HALTED ∧
     ((engineIn RUNNING).halt).engine.taskDone = true) ∧
    (((engineIn HALTING).halt).ok = false ∧
     ((engineIn HALTING).halt).requests =
      [⟨HALTING, some "halt() called", none⟩]) :=
  ⟨(c8_halt_idempotent (engineIn HALTED)).1 rfl,
   (fun h => ⟨h.1, h.2.1, h.2.2 rfl rfl⟩)
     (((c8_halt_idempotent (engineIn RUNNING)).2 (by decide)).2.2.1 (by decide)),
   ((c8_halt_idempotent (engineIn HALTING)).2 (by decide)).2.2.2 (by decide)⟩

/-- C4 counterexample: the engine configuration reached by `start` on an
empty step list followed by the spawned task running to completion is in
state STOPPED (outside RUNNING/PAUSED/STOPPING/HALTING) while its task
handle is still present — `self._task` is never assigned None in engine.py,
neither on completion nor on teardown. -/
theorem c4_counterexample_task_survives_stopped :
    Reaches engineAfterCompletedRun ∧
    engineAfterCompletedRun.taskPresent = true ∧
    engineAfterCompletedRun.machine.state = STOPPED ∧
    engineAfterCompletedRun.machine.state ∉ [RUNNING, PAUSED, STOPPING, HALTING] :=
  ⟨by unfold engineAfterCompletedRun
      exact Reaches.step _ _ (Reaches.step _ _ Reaches.init),
   by decide, by decide, by decide⟩

/-- C4 (amended): the task handle is absent at creation, becomes present
exactly through a `start` accepted from IDLE, and is never cleared by any
later event — it survives task completion, stop, halt, and reset — so a
present handle only witnesses that a start once happened, not that the state
is still in RUNNING/PAUSED/STOPPING/HALTING. -/
theorem c4_task_handle_never_cleared :
    Engine.initial.taskPresent = false ∧
    (∀ (e : Engine) (ev : EngineEvent),
      e.taskPresent = true → (applyEvent e ev).taskPresent = true) ∧
    (∀ (e : Engine) (ev : EngineEvent),
      e.taskPresent = false → (applyEvent e ev).taskPresent = true →
      (∃ data, ev = .startCmd data) ∧ e.machine.state = IDLE) := by
  refine ⟨rfl, ?_, ?_⟩
  · intro e ev h
    obtain ⟨⟨s, cbs⟩, tp, td, tdata, bus⟩ := e
    cases ev <;> cases s <;>
      simp_all [applyEvent, Engine.start, Engine.pause, Engine.resume,
        Engine.stop, Engine.halt, Engine.reset, Engine.taskRunsToCompletion,
        SMachine.transition, VALID_TRANSITIONS] <;>
      split_ifs <;> simp_all
  · intro e ev h h2
    obtain ⟨⟨s, cbs⟩, tp, td, tdata, bus⟩ := e
    cases ev <;> cases s <;>
      simp_all [applyEvent, Engine.start, Engine.pause, Engine.resume,
        Engine.stop, Engine.halt, Engine.reset, Engine.taskRunsToCompletion,
        SMachine.transition, VALID_TRANSITIONS] <;>
      split_ifs at h2 <;> simp_all

/-- C4 amended witness: after a start from IDLE the handle is present, and it
is still present after a subsequent halt. -/
theorem c4_task_handle_never_cleared_witness :
    (applyEvent (applyEvent Engine.initial
      (.startCmd { steps := some [] })) .haltCmd).taskPresent = true :=
  c4_task_handle_never_cleared.2.1
    (applyEvent Engine.initial (.startCmd { steps := some [] })) .haltCmd
    (by decide)

end PySeq
